import Mathlib

/-!
Verification of the memory-augmented orchestration core of the `memory`
repository (agentic-memory orchestrator for seller analytics).

The TypeScript sources are shallowly embedded: pure functions become Lean
functions over `List Char` / `String` / `ℚ` / `ℝ`; the SQLite-backed state
store becomes explicit lists of rows with the FTS engine's MATCH predicate
and BM25 ranking passed in as parameters (they are internal to the storage
engine); SHA-256 is modelled by an injective placeholder (only
functionality of the hash, never collision resistance, is used by any
statement); JavaScript numbers on scoring paths are modelled as rationals,
and the leverager's real-valued hybrid score as a real-valued function.
-/

/-! ## JavaScript string primitives

JS strings are modelled as `String` (sequences of chars); `slice(0, n)`,
`trim`, whitespace collapsing and lexicographic comparison are defined
over the underlying char list so that everything reduces in the kernel. -/

/-- The JS `\s` class (space, tab, LF, CR, VT, FF, NBSP); the less common
Unicode space characters are omitted, none of the embedded texts use them. -/
def isJsSpace (c : Char) : Bool :=
  c = ' ' || c = '\t' || c = '\n' || c = '\r' || c = '\x0b' || c = '\x0c' || c = ' '

/-- Models `s.slice(0, n)` for `n ≥ 0`. -/
def jsSlice (s : String) (n : Nat) : String :=
  String.mk (s.data.take n)

/-- Models `String.prototype.trim` (strip leading and trailing whitespace). -/
def jsTrim (s : String) : String :=
  String.mk (((s.data.dropWhile isJsSpace).reverse.dropWhile isJsSpace).reverse)

/-- Models `String.prototype.toLowerCase` (char-wise; JS lowering is
Unicode-aware, which agrees with `Char.toLower` on the texts handled
here). -/
def jsToLower (s : String) : String :=
  String.mk (s.data.map Char.toLower)

/-- One pass of whitespace-run collapsing: every maximal run of whitespace
becomes a single space. The flag records whether the previous char was
part of a run. Models `replaceAll(/\s+/g, " ")`. -/
def collapseWsAux : Bool → List Char → List Char
  | _, [] => []
  | prevWs, c :: rest =>
    if isJsSpace c then
      if prevWs then collapseWsAux true rest else ' ' :: collapseWsAux true rest
    else c :: collapseWsAux false rest

/-- Models `s.replaceAll(/\s+/g, " ")`. -/
def collapseWs (s : String) : String :=
  String.mk (collapseWsAux false s.data)

/-- Byte-order lexicographic comparison on char lists: the order SQLite uses
for TEXT comparison (memcmp on UTF-8) and JS uses for string `<`, both of
which agree with codepoint order on the strings handled here. -/
def charListLt : List Char → List Char → Bool
  | [], [] => false
  | [], _ :: _ => true
  | _ :: _, [] => false
  | a :: as, b :: bs =>
    if a.val < b.val then true
    else if b.val < a.val then false
    else charListLt as bs

/-- String strictly-less-than, kernel-computable. -/
def strLtB (a b : String) : Bool :=
  charListLt a.data b.data

/-- String less-or-equal, kernel-computable. -/
def strLeB (a b : String) : Bool :=
  !(charListLt b.data a.data)

/-! ## Regex engine

A small backtracking matcher, used to embed the three PII-redaction
regexes of `src/packages/core/src/util/redact.ts` faithfully: classes,
concatenation, alternation, greedy and lazy option, star over a class,
and word boundaries. The matcher is continuation-passing and tracks the
previous char (for `\b`); alternatives are tried in JS backtracking
order (greedy tries the longer expansion first, lazy the shorter).
A fuel parameter makes it structurally recursive; fuel is ample for every
string this development evaluates it on. -/

inductive Re where
  | eps
  | boundary
  | cls (p : Char → Bool)
  | cat (a b : Re)
  | alt (a b : Re)
  | opt (greedy : Bool) (a : Re)
  | starCls (greedy : Bool) (p : Char → Bool)

/-- JS regex word char `[A-Za-z0-9_]`, the class defining `\b`. -/
def isWordChar (c : Char) : Bool :=
  ('a' ≤ c && c ≤ 'z') || ('A' ≤ c && c ≤ 'Z') || ('0' ≤ c && c ≤ '9') || c = '_'

/-- Word boundary between the previous char and the rest of the input. -/
def atBoundary (prev : Option Char) (s : List Char) : Bool :=
  let pw := match prev with | some c => isWordChar c | none => false
  let nw := match s with | c :: _ => isWordChar c | [] => false
  pw != nw

/-- Backtracking matcher: `reRun fuel r prev s k` tries to match `r` at the
start of `s` (with `prev` the char just before `s`) and calls the
continuation `k` on the state after the match, in backtracking priority
order, returning the first success. -/
def reRun (fuel : Nat) (r : Re) (prev : Option Char) (s : List Char)
    (k : Option Char → List Char → Option (List Char)) : Option (List Char) :=
  match fuel with
  | 0 => none
  | fuel + 1 =>
    match r with
    | .eps => k prev s
    | .boundary => if atBoundary prev s then k prev s else none
    | .cls p =>
      match s with
      | [] => none
      | c :: rest => if p c then k (some c) rest else none
    | .cat a b => reRun fuel a prev s (fun p2 s2 => reRun fuel b p2 s2 k)
    | .alt a b =>
      match reRun fuel a prev s k with
      | some res => some res
      | none => reRun fuel b prev s k
    | .opt true a =>
      match reRun fuel a prev s k with
      | some res => some res
      | none => k prev s
    | .opt false a =>
      match k prev s with
      | some res => some res
      | none => reRun fuel a prev s k
    | .starCls greedy p =>
      match s with
      | [] => k prev s
      | c :: rest =>
        if greedy then
          match (if p c then reRun fuel (.starCls greedy p) (some c) rest k else none) with
          | some res => some res
          | none => k prev s
        else
          match k prev s with
          | some res => some res
          | none => if p c then reRun fuel (.starCls greedy p) (some c) rest k else none

/-- Repeat `r` exactly `n` times (`{n}`). -/
def reTimes : Nat → Re → Re
  | 0, _ => .eps
  | n + 1, r => .cat r (reTimes n r)

/-- Greedy repetition at most `n` times (`{0,n}`). -/
def reUpTo : Nat → Re → Re
  | 0, _ => .eps
  | n + 1, r => .opt true (.cat r (reUpTo n r))

/-- One or more repetitions of a class, greedy (`+`). -/
def rePlusCls (p : Char → Bool) : Re :=
  .cat (.cls p) (.starCls true p)

def isDigitCh (c : Char) : Bool := '0' ≤ c && c ≤ '9'

def isAsciiAlpha (c : Char) : Bool := ('a' ≤ c && c ≤ 'z') || ('A' ≤ c && c ≤ 'Z')

/-- `[A-Z0-9._%+-]` with the `i` flag. -/
def emailLocalChar (c : Char) : Bool :=
  isAsciiAlpha c || isDigitCh c || c = '.' || c = '_' || c = '%' || c = '+' || c = '-'

/-- `[A-Z0-9.-]` with the `i` flag. -/
def emailDomainChar (c : Char) : Bool :=
  isAsciiAlpha c || isDigitCh c || c = '.' || c = '-'

def spaceOrDash (c : Char) : Bool := isJsSpace c || c = '-'

/-- Embeds `/\b[A-Z0-9._%+-]+@[A-Z0-9.-]+\.[A-Z]{2,}\b/gi` (the `{2,}` is
spelled as one mandatory char followed by `+`). -/
def EMAIL_RE : Re :=
  .cat .boundary (.cat (rePlusCls emailLocalChar) (.cat (.cls (· = '@'))
    (.cat (rePlusCls emailDomainChar) (.cat (.cls (· = '.'))
      (.cat (.cat (.cls isAsciiAlpha) (rePlusCls isAsciiAlpha)) .boundary)))))

/-- Embeds `/\b(?:\+?\d{1,3}[\s-]?)?(?:\(?\d{3}\)?[\s-]?)\d{3}[\s-]?\d{4}\b/g`
(`\d{1,3}` is one mandatory digit plus greedy `{0,2}` more). -/
def PHONE_RE : Re :=
  .cat .boundary (.cat
    (.opt true (.cat (.opt true (.cls (· = '+')))
      (.cat (.cat (.cls isDigitCh) (reUpTo 2 (.cls isDigitCh))) (.opt true (.cls spaceOrDash)))))
    (.cat (.cat (.opt true (.cls (· = '('))) (.cat (reTimes 3 (.cls isDigitCh))
      (.cat (.opt true (.cls (· = ')'))) (.opt true (.cls spaceOrDash)))))
    (.cat (reTimes 3 (.cls isDigitCh)) (.cat (.opt true (.cls spaceOrDash))
      (.cat (reTimes 4 (.cls isDigitCh)) .boundary)))))

/-- One `\d[ -]*?` unit of the card pattern (the inner star is lazy). -/
def ccUnit : Re :=
  .cat (.cls isDigitCh) (.starCls false (fun c => c = ' ' || c = '-'))

/-- Embeds `/\b(?:\d[ -]*?){13,19}\b/g`: thirteen mandatory units followed by
up to six more, greedy. -/
def CC_RE : Re :=
  .cat .boundary (.cat (reTimes 13 ccUnit) (.cat (reUpTo 6 ccUnit) .boundary))

/-- Match `r` at the start of `s` (char before `s` is `prev`), returning the
input remaining after the match chosen by backtracking priority. -/
def reMatchAt (r : Re) (prev : Option Char) (s : List Char) : Option (List Char) :=
  reRun (4 * (s.length + 2) * (s.length + 2)) r prev s (fun _ rest => some rest)

/-- `replaceAll` for a global regex: scan left to right, replacing each
match and resuming after it. Fuel is one more than the input length, which
suffices since every step either consumes the matched chars or advances
one char. Zero-length matches advance one char (none of the embedded
patterns can match the empty string). -/
def replaceRe (r : Re) (repl : List Char) : Nat → Option Char → List Char → List Char
  | 0, _, _ => []
  | _, _, [] => []
  | fuel + 1, prev, c :: rest =>
    match reMatchAt r prev (c :: rest) with
    | some remaining =>
      if remaining.length < rest.length + 1 then
        repl ++ replaceRe r repl fuel none remaining
      else
        c :: replaceRe r repl fuel (some c) rest
    | none => c :: replaceRe r repl fuel (some c) rest

/-- Models `text.replaceAll(re, repl)` with a global regex. -/
def replaceAllRe (r : Re) (repl : List Char) (s : List Char) : List Char :=
  replaceRe r repl (s.length + 1) none s

/-- Embeds `redactPII` of `src/packages/core/src/util/redact.ts`: email,
then phone, then card redaction. -/
def redactPII (text : String) : String :=
  let s1 := replaceAllRe EMAIL_RE ("[REDACTED_EMAIL]").data text.data
  let s2 := replaceAllRe PHONE_RE ("[REDACTED_PHONE]").data s1
  let s3 := replaceAllRe CC_RE ("[REDACTED_CARD]").data s2
  String.mk s3

/-! ## Stable JSON serialization (`src/packages/core/src/util/json.ts`)

JSON values are modelled by an inductive type (numbers as integers: every
number serialized on the paths verified here is integral). `stableStringify`
embeds `JSON.stringify(value, replacer)` where the replacer recursively
sorts object keys: since the rendering of each value is independent of its
position, sorting the rendered key/value pairs of each object node is the
same as sorting before serializing. Key order is JS `Array.prototype.sort`
default order (code-unit lexicographic), embedded by `strLeB`; the sort is
stable (JS objects cannot hold duplicate keys, so ties never matter). -/

/-- Stable insertion of `x` into `l` under `le` (used where JS sorts). -/
def insertLe {α : Type} (le : α → α → Bool) (x : α) : List α → List α
  | [] => [x]
  | y :: ys => if le x y then x :: y :: ys else y :: insertLe le x ys

/-- Stable sort under a Bool comparator, kernel-computable. -/
def insertionSort {α : Type} (le : α → α → Bool) (l : List α) : List α :=
  l.foldr (insertLe le) []

inductive Json where
  | null
  | bool (b : Bool)
  | num (n : Int)
  | str (s : String)
  | arr (elems : List Json)
  | obj (fields : List (String × Json))

def hexDigit (n : Nat) : Char :=
  if n < 10 then Char.ofNat ('0'.toNat + n) else Char.ofNat ('a'.toNat + (n - 10))

/-- JSON string escaping as performed by `JSON.stringify`. -/
def escapeJsonChar (c : Char) : List Char :=
  if c = '"' then ['\\', '"']
  else if c = '\\' then ['\\', '\\']
  else if c = '\n' then ['\\', 'n']
  else if c = '\r' then ['\\', 'r']
  else if c = '\t' then ['\\', 't']
  else if c = '\x08' then ['\\', 'b']
  else if c = '\x0c' then ['\\', 'f']
  else if c.toNat < 32 then ['\\', 'u', '0', '0', hexDigit (c.toNat / 16), hexDigit (c.toNat % 16)]
  else [c]

def quoteJson (s : String) : String :=
  String.mk ('"' :: s.data.foldr (fun c acc => escapeJsonChar c ++ acc) ['"'])

def joinComma : List String → String
  | [] => ""
  | [x] => x
  | x :: xs => x ++ "," ++ joinComma xs

mutual

/-- Embeds `stableStringify`: `JSON.stringify` with object keys sorted
recursively. -/
def stableStringify : Json → String
  | .null => "null"
  | .bool true => "true"
  | .bool false => "false"
  | .num n => toString n
  | .str s => quoteJson s
  | .arr es => "[" ++ joinComma (stringifyElems es) ++ "]"
  | .obj kvs =>
    let rendered := stringifyFields kvs
    let sorted := insertionSort (fun a b => strLeB a.1 b.1) rendered
    "\x7b" ++ joinComma (sorted.map (fun kv => quoteJson kv.1 ++ ":" ++ kv.2)) ++ "\x7d"

def stringifyElems : List Json → List String
  | [] => []
  | j :: js => stableStringify j :: stringifyElems js

def stringifyFields : List (String × Json) → List (String × String)
  | [] => []
  | (k, v) :: kvs => (k, stableStringify v) :: stringifyFields kvs

end

/-! ## Tool signature (`src/packages/core/src/tools/signature.ts`) -/

/-- SHA-256 hex digest, modelled as an injective placeholder: every claim
in this development uses only that the hash is a function of its input,
never collision resistance or the concrete digest value. -/
def sha256Hex (s : String) : String := s

/-- Embeds `toolSignature(tool, args, namespace?)`:
`sha256(namespace? ++ "::" ++ tool ++ ":" ++ stableStringify(args))`,
result id `tool ++ ":" ++ hex`. -/
def toolSignature (tool : String) (args : Json) (namespc : Option String) : String :=
  let stable := stableStringify args
  let ns := match namespc with | some n => n ++ "::" | none => ""
  let hash := sha256Hex (ns ++ tool ++ ":" ++ stable)
  tool ++ ":" ++ hash

/-! ## State store (`src/packages/core/src/memory/stateStore.ts`)

The SQLite tables become lists of rows. Serialized TEXT columns holding
`stableStringify` output are kept as the corresponding `Json`/`String`
values. The FTS5 engine's `MATCH` predicate and `bm25` ranking are
parameters of `searchMemory` (they are internal to the storage engine);
everything the store itself computes is embedded. Row order in a list
plays the role of insertion order; each table's primary key makes the
`find?` row lookups match the SQL single-row `get` calls. -/

structure MemoryRow where
  id : String
  scope : String
  kind : String
  text : String
  meta : Json
  dedupeKey : String
  createdAt : String
  lastUsedAt : String
  useCount : Nat
  importance : ℚ
  quality : ℚ
  expiresAt : Option String

structure FtsRow where
  id : String
  text : String
  kind : String
  scope : String

structure CacheRow where
  signature : String
  createdAt : String
  tool : String
  argsJson : String
  resultJson : String

structure RunRecord where
  id : String
  createdAt : String
  userId : String
  config : Json
  query : String
  augmentedQuery : Option String
  route : Option String
  ood : Option Bool
  plan : Option Json
  toolCalls : Option Json
  response : Option String
  evalJson : Option Json
  latencies : Option Json
  memoryInjected : Option Json

structure IaStateStore where
  runs : List RunRecord
  items : List MemoryRow
  fts : List FtsRow
  toolCache : List CacheRow

/-- Embeds `insertRun` (append-only). -/
def insertRun (db : IaStateStore) (run : RunRecord) : IaStateStore :=
  { db with runs := db.runs ++ [run] }

/-- Embeds the static `IaStateStore.dedupeKey(kind, text)`:
sha256 of `kind ++ ":" ++` the text trimmed, lowercased,
whitespace-collapsed and capped at 2000 chars. (JS `toLowerCase` is
Unicode-aware; ASCII lowering is faithful for every text handled here.) -/
def dedupeKeyOf (kind : String) (text : String) : String :=
  let normalized := jsSlice (collapseWs (jsToLower (jsTrim text))) 2000
  sha256Hex (kind ++ ":" ++ normalized)

/-- Embeds `clamp01`. `Number.isNaN` has no counterpart on `ℚ` (the NaN
branch of the source returns 0 and is unreachable in this model). -/
def clamp01 (value : ℚ) : ℚ :=
  if value < 0 then 0 else if value > 1 then 1 else value

structure UpsertInput where
  id : Option String
  scope : String
  kind : String
  text : String
  meta : Option Json
  createdAt : Option String
  lastUsedAt : Option String
  useCount : Option Nat
  importance : Option ℚ
  quality : Option ℚ
  expiresAt : Option String
  dedupeKey : Option String

/-- The per-row effect of the `UPDATE memory_items SET
text, meta_json, last_used_at, use_count, importance, quality, expires_at
WHERE id = item.id` statement (id, scope, kind, dedupe key and created-at
are left untouched). -/
def updateRow (item : MemoryRow) (r : MemoryRow) : MemoryRow :=
  if r.id = item.id then
    { r with
      text := item.text
      meta := item.meta
      lastUsedAt := item.lastUsedAt
      useCount := item.useCount
      importance := item.importance
      quality := item.quality
      expiresAt := item.expiresAt }
  else r

/-- Embeds `upsertMemoryItem`. `now` is the wall-clock ISO timestamp the
source reads at entry, `fresh` the `ulid()` drawn when no id is supplied.
Returns the `MemoryItem` the source returns together with the updated
store. -/
def upsertMemoryItem (db : IaStateStore) (input : UpsertInput) (now fresh : String) :
    MemoryRow × IaStateStore :=
  let cleanedText := redactPII input.text
  let key := input.dedupeKey.getD (dedupeKeyOf input.kind cleanedText)
  let existing := db.items.find? (fun r =>
    r.scope = input.scope && r.kind = input.kind && r.dedupeKey = key)
  let item : MemoryRow := {
    id := match existing with | some e => e.id | none => input.id.getD fresh
    scope := input.scope
    kind := input.kind
    text := cleanedText
    meta := input.meta.getD (.obj [])
    createdAt := input.createdAt.getD now
    lastUsedAt := input.lastUsedAt.getD now
    useCount := input.useCount.getD 0
    importance := clamp01 (input.importance.getD (0.3 : ℚ))
    quality := clamp01 (input.quality.getD (0.5 : ℚ))
    expiresAt := input.expiresAt
    dedupeKey := key }
  match existing with
  | some _ =>
    let items2 := db.items.map (updateRow item)
    let fts2 := (db.fts.filter (fun f => f.id ≠ item.id)) ++
      [{ id := item.id, text := item.text, kind := item.kind, scope := item.scope }]
    (item, { db with items := items2, fts := fts2 })
  | none =>
    let items2 := db.items ++ [item]
    let fts2 := db.fts ++
      [{ id := item.id, text := item.text, kind := item.kind, scope := item.scope }]
    (item, { db with items := items2, fts := fts2 })

structure SearchOpts where
  query : String
  scopes : List String
  kinds : Option (List String)
  limit : Option Nat
  nowIso : String

structure MemorySearchHit extends MemoryRow where
  bm25 : ℚ
  ftsRank : ℚ

/-- Embeds `searchMemory`. `ftsMatch q f` stands for `f MATCH q` and
`bm25 q f` for the `bm25(memory_fts)` rank of row `f` under query `q`;
both belong to the FTS engine. The SQL filters rows by MATCH, TTL
(`expires_at IS NULL OR expires_at > nowIso`), scope and optional kind,
orders by bm25 ascending and limits to `max 1 (min 50 limit)`. The
`nowIso` default (`new Date().toISOString()`) is supplied by the caller
here. -/
def searchMemory (db : IaStateStore) (ftsMatch : String → FtsRow → Bool)
    (bm25 : String → FtsRow → ℚ) (opts : SearchOpts) : List MemorySearchHit :=
  let limit := max 1 (min 50 (opts.limit.getD 20))
  let scopes := if opts.scopes.isEmpty then ["global"] else opts.scopes
  let kinds := match opts.kinds with
    | some ks => if ks.isEmpty then none else some ks
    | none => none
  let joined := db.fts.filterMap (fun f =>
    if ftsMatch opts.query f then
      (db.items.find? (fun mi => mi.id = f.id)).map (fun mi => (f, mi))
    else none)
  let filtered := joined.filter (fun fm =>
    (match fm.2.expiresAt with | none => true | some e => strLtB opts.nowIso e) &&
    scopes.contains fm.2.scope &&
    (match kinds with | none => true | some ks => ks.contains fm.2.kind))
  let ordered := insertionSort
    (fun a b => !(bm25 opts.query b.1 < bm25 opts.query a.1 : Bool)) filtered
  (ordered.take limit).map (fun fm =>
    { toMemoryRow := fm.2
      bm25 := bm25 opts.query fm.1
      ftsRank := 1 / (1 + bm25 opts.query fm.1) })

/-- Keep-first deduplication, embedding `[...new Set(ids)]`. -/
def dedupKeepFirstAux : List String → List String → List String
  | _, [] => []
  | seen, x :: xs =>
    if seen.contains x then dedupKeepFirstAux seen xs
    else x :: dedupKeepFirstAux (x :: seen) xs

def dedupKeepFirst (ids : List String) : List String :=
  dedupKeepFirstAux [] ids

/-- Embeds `markMemoryUsed`: for each distinct id, set `last_used_at` and
increment `use_count`. -/
def markMemoryUsed (db : IaStateStore) (ids : List String) (nowIso : String) : IaStateStore :=
  let unique := dedupKeepFirst ids
  { db with items := db.items.map (fun r =>
      if unique.contains r.id then
        { r with lastUsedAt := nowIso, useCount := r.useCount + 1 }
      else r) }

/-- Embeds `getToolCache`: the stored `(created_at, result_json)` pair, or
none. The source applies `safeJsonParse` to `result_json` before returning;
the serialized form is returned here and JSON equivalence of results is
compared at the level of these canonical serializations. -/
def getToolCache (db : IaStateStore) (signature : String) : Option (String × String) :=
  (db.toolCache.find? (fun r => r.signature = signature)).map
    (fun r => (r.createdAt, r.resultJson))

/-- Embeds `setToolCache`: insert, or on signature conflict update only
`created_at` and `result_json` (per the `ON CONFLICT` clause). -/
def setToolCache (db : IaStateStore) (tool : String) (signature : String)
    (args result : Json) (nowIso : String) : IaStateStore :=
  if db.toolCache.any (fun r => r.signature = signature) then
    { db with toolCache := db.toolCache.map (fun r =>
        if r.signature = signature then
          { r with createdAt := nowIso, resultJson := stableStringify result }
        else r) }
  else
    { db with toolCache := db.toolCache ++
        [{ signature := signature, createdAt := nowIso, tool := tool,
           argsJson := stableStringify args, resultJson := stableStringify result }] }

/-- Embeds `maintenance`: delete items (and their FTS rows) whose
`expires_at` is non-null and `≤ nowIso`; returns the number expired. -/
def maintenance (db : IaStateStore) (nowIso : String) : Nat × IaStateStore :=
  let expiredIds := (db.items.filter (fun r =>
    match r.expiresAt with
    | some e => !(strLtB nowIso e)
    | none => false)).map (fun r => r.id)
  (expiredIds.length,
    { db with
      items := db.items.filter (fun r => !(expiredIds.contains r.id))
      fts := db.fts.filter (fun f => !(expiredIds.contains f.id)) })

/-! ## Leverager (`memory/leverager.ts`)

The retrieval path: build an FTS query, restrict kinds by stage, search,
rank, keep the top `k`, mark used, render bounded cards. The hybrid
score is computed on JS floats in the source; `retrieve` is parametric in
the numeric scorer (any scoring function gives the same card bounds), and
the scoring formula itself is embedded over `ℝ` as `scoreHit` below. -/

inductive MemoryStage where
  | manager_route
  | workflow_plan
  | insight_generate

/-- Embeds `kindsForStage` (total on the stage union type). -/
def kindsForStage : MemoryStage → List String
  | .manager_route => ["domain_rule", "query_pattern", "user_preference"]
  | .workflow_plan =>
    ["tool_template", "query_pattern", "domain_rule", "failure_case", "user_preference"]
  | .insight_generate =>
    ["insight_pattern", "user_preference", "domain_rule", "failure_case", "query_pattern"]

def STOPWORDS : List String :=
  ["the", "and", "for", "with", "show", "what", "were", "last", "this", "that",
   "those", "month", "week", "products", "product", "top"]

/-- A char of the token class `[a-z0-9_]`. -/
def tokenChar (c : Char) : Bool :=
  ('a' ≤ c && c ≤ 'z') || isDigitCh c || c = '_'

/-- Embeds `text.match(/[a-z0-9_]+/g) ?? []`: the maximal runs of token
chars, in order. The accumulator holds the current run reversed. -/
def tokenizeAux : List Char → List Char → List String
  | acc, [] => if acc.isEmpty then [] else [String.mk acc.reverse]
  | acc, c :: rest =>
    if tokenChar c then tokenizeAux (c :: acc) rest
    else if acc.isEmpty then tokenizeAux [] rest
    else String.mk acc.reverse :: tokenizeAux [] rest

def tokenize (text : String) : List String :=
  tokenizeAux [] text.data

/-- Whether `pat` occurs as a contiguous substring, embedding JS
`String.prototype.includes`. -/
def listStartsWith : List Char → List Char → Bool
  | _, [] => true
  | [], _ :: _ => false
  | a :: as, b :: bs => a = b && listStartsWith as bs

def includesAt : List Char → List Char → Bool
  | [], pat => listStartsWith [] pat
  | s@(_ :: rest), pat => listStartsWith s pat || includesAt rest pat

def includesStr (s pat : String) : Bool :=
  includesAt s.data pat.data

def joinOr : List String → String
  | [] => ""
  | [x] => x
  | x :: xs => x ++ " OR " ++ joinOr xs

/-- Embeds `buildRetrievalQuery`: clean the query, add phrase hints,
tokenize, drop short tokens and stopwords, keep the first 12 distinct
tokens, join with OR (or fall back to the cleaned query). -/
def buildRetrievalQuery (query : String) (entities : List String) : String :=
  let clean := jsToLower (jsTrim (collapseWs query))
  let phraseHints :=
    (if includesStr clean ("last month") then [("\"last month\"" : String)] else []) ++
    (if includesStr clean ("last week") then [("\"last week\"" : String)] else []) ++
    (if includesStr clean ("top") && includesStr clean ("products") then
      [("\"top products\"" : String)] else [])
  let tokens := (phraseHints ++ tokenize clean ++
      (entities.flatMap (fun e => tokenize (jsToLower e)))).filter
    (fun t => decide (3 ≤ t.length) && !(STOPWORDS.contains t))
  let unique := (dedupKeepFirst tokens).take 12
  if unique.isEmpty then clean else joinOr unique

structure MemoryCard where
  id : String
  kind : String
  scope : String
  score : ℚ
  text : String

/-- `Number.prototype.toFixed(2)`; rounding of the rational scale by
`round` (the float dance of `toFixed` agrees on the values rendered
here). -/
def qToFixed2 (q : ℚ) : String :=
  let n : Int := round (q * 100)
  let sign := if n < 0 then ("-" : String) else ""
  let m := n.natAbs
  sign ++ toString (m / 100) ++ "." ++ (if m % 100 < 10 then ("0" : String) else "") ++
    toString (m % 100)

/-- A finished whitespace run: a run containing a newline collapses to one
newline, any other run is kept verbatim. -/
def emitWsRun (run : List Char) : List Char :=
  if run.contains '\n' then ['\n'] else run.reverse

/-- Embeds `replaceAll(/\s*\n\s*/g, "\n")`: every maximal whitespace run
containing a newline becomes a single newline (the pattern matches
exactly those runs). The accumulator holds the current run reversed. -/
def collapseNlAux : List Char → List Char → List Char
  | run, [] => emitWsRun run
  | run, c :: rest =>
    if isJsSpace c then collapseNlAux (c :: run) rest
    else emitWsRun run ++ c :: collapseNlAux [] rest

/-- Embeds `renderCard(hit, score, maxChars)`: three-line layout, truncated
to `maxChars` chars with a one-char ellipsis when over budget. -/
def renderCard (hit : MemorySearchHit) (score : ℚ) (maxChars : Nat) : MemoryCard :=
  let header := "MEMORY CARD [" ++ hit.kind ++ "] (" ++ hit.scope ++ ")"
  let body := jsTrim (String.mk (collapseNlAux [] hit.text.data))
  let signals := "Signals: q=" ++ qToFixed2 hit.quality ++ " imp=" ++ qToFixed2 hit.importance
    ++ " used=" ++ toString hit.useCount ++ " last=" ++ jsSlice hit.lastUsedAt 10
  let raw := header ++ "\n" ++ body ++ "\n" ++ signals
  let text := if maxChars < raw.length then jsSlice raw (maxChars - 1) ++ "…" else raw
  { id := hit.id, kind := hit.kind, scope := hit.scope, score := score, text := text }

structure RetrieveResult where
  cards : List MemoryCard
  hits : List (String × ℚ)
  store : IaStateStore

/-- Embeds `MemoryLeverager.retrieve` with configuration `k` /
`maxCardChars` (defaults 6 / 600). The FTS `MATCH`/`bm25` oracles and the
numeric scorer are parameters; `nowIso` is the ISO rendering of the
`nowMs` clock reading. Searches with limit 30, ranks descending by score
(stably, as JS sort), keeps `k`, marks those used, renders cards. -/
def retrieve (db : IaStateStore) (ftsMatch : String → FtsRow → Bool)
    (bm25 : String → FtsRow → ℚ) (score : MemorySearchHit → ℚ)
    (k maxCardChars : Nat) (stage : MemoryStage) (query : String)
    (entities : List String) (scopes : List String) (nowIso : String) : RetrieveResult :=
  let retrievalQuery := buildRetrievalQuery query entities
  let hits := searchMemory db ftsMatch bm25
    { query := retrievalQuery, scopes := scopes, kinds := some (kindsForStage stage),
      limit := some 30, nowIso := nowIso }
  let scored := (insertionSort (fun a b => !(a.2 < b.2 : Bool))
    (hits.map (fun h => (h, score h)))).take k
  let cards := scored.map (fun hs => renderCard hs.1 hs.2 maxCardChars)
  let db2 := markMemoryUsed db (scored.map (fun hs => hs.1.id)) nowIso
  { cards := cards, hits := scored.map (fun hs => (hs.1.id, hs.2)), store := db2 }

/-- `14 * 24 * 60 * 60 * 1000` milliseconds. -/
def TWO_WEEKS_MS : ℝ := 14 * 24 * 60 * 60 * 1000

/-- Embeds the age computation of `scoreHit`: `max 0 (nowMs - lastUsedMs)`
when `Date.parse(hit.lastUsedAt)` is finite, two weeks otherwise. -/
noncomputable def ageMsOf (lastUsedMs : Option ℝ) (nowMs : ℝ) : ℝ :=
  match lastUsedMs with
  | some t => max 0 (nowMs - t)
  | none => TWO_WEEKS_MS

/-- Embeds the numeric formula of `scoreHit`:
`0.55·ftsRank + 0.25·exp(-age/14d) + 0.15·importance + 0.05·log1p(useCount)`. -/
noncomputable def scoreHit (ftsRank ageMs importance useCount : ℝ) : ℝ :=
  0.55 * ftsRank + 0.25 * Real.exp (-(ageMs / TWO_WEEKS_MS)) +
    0.15 * importance + 0.05 * Real.log (1 + useCount)

/-! ## Evaluator scoring (`memory/evaluator.ts`)

The three scoring functions are embedded over `ℚ` (JS numbers on these
paths). The dataset re-execution (`toolRegistry.top_products.execute`
against the analytics tables, an external `DatasetQuery` collaborator) is
passed in as the `expected` rows / leader ids. Tool-call records are
duck-typed in the source (`call.result as any`); the fields the evaluator
reads are modelled with `Option` for absent properties. -/

structure EvalScores where
  correctness : ℚ
  completeness : ℚ
  relevance : ℚ
  quality : ℚ
  notes : List String

structure TopRow where
  productId : String
  metricValue : ℚ

structure SeriesPoint where
  date : String
  value : ℚ

structure SeriesEntry where
  productId : String
  points : Option (List SeriesPoint)

/-- The fields the evaluator reads from `call.args as any`. -/
structure EvalCallArgs where
  metric : String
  startDate : String
  endDate : String
  productIds : Option (List String)

/-- The fields the evaluator reads from `call.result as any`. -/
structure EvalCallResult where
  rows : Option (List TopRow)
  series : Option (List SeriesEntry)

structure EvalToolCall where
  tool : String
  args : Option EvalCallArgs
  result : Option EvalCallResult

structure TopProductsSpec where
  metric : String
  limit : Nat
  startDate : String
  endDate : String

structure TimeseriesSpec where
  metric : String
  startDate : String
  endDate : String

structure WhyDropSpec where
  metric : String
  thisWeekStart : String
  thisWeekEnd : String
  lastWeekStart : String
  lastWeekEnd : String

/-- Embeds `nearlyEqual(a, b, relTol)`. -/
def nearlyEqual (a b relTol : ℚ) : Bool :=
  if a = b then true
  else decide (|a - b| / max 1 (max |a| |b|) ≤ relTol)

/-- Embeds the `relevance` computation shared by the top-products and
timeseries evaluators: 1 when the actual args match the spec's metric and
date range exactly, 0.4 otherwise (also when args are not an object). -/
def relevanceOfArgs (args : Option EvalCallArgs) (metric startDate endDate : String) : ℚ :=
  match args with
  | some a =>
    if a.metric = metric && a.startDate = startDate && a.endDate = endDate then 1
    else (0.4 : ℚ)
  | none => (0.4 : ℚ)

/-- Embeds `evaluateTopProducts`. `expected` is the row list returned by
re-executing `top_products` on the dataset with the spec's args. -/
def evaluateTopProducts (expected : List TopRow) (toolCalls : List EvalToolCall)
    (spec : TopProductsSpec) : EvalScores :=
  match toolCalls.find? (fun c => c.tool = "top_products") with
  | none =>
    { correctness := 0, completeness := 0, relevance := 0, quality := 0,
      notes := ["Missing top_products call."] }
  | some call =>
    match call.result.bind (fun r => r.rows) with
    | none =>
      { correctness := 0, completeness := 0, relevance := (0.2 : ℚ),
        quality := (0.07 : ℚ), notes := ["Empty tool result."] }
    | some actualRows =>
      if actualRows.isEmpty then
        { correctness := 0, completeness := 0, relevance := (0.2 : ℚ),
          quality := (0.07 : ℚ), notes := ["Empty tool result."] }
      else
        let n := min spec.limit (min expected.length actualRows.length)
        let matchCount := ((expected.take n).zip (actualRows.take n)).countP (fun ea =>
          ea.1.productId = ea.2.productId && nearlyEqual ea.1.metricValue ea.2.metricValue (0.01 : ℚ))
        let correctness : ℚ := if 0 < n then (matchCount : ℚ) / (n : ℚ) else 0
        let completeness : ℚ := min 1 ((actualRows.length : ℚ) / (spec.limit : ℚ))
        let relevance := relevanceOfArgs call.args spec.metric spec.startDate spec.endDate
        let quality := (correctness + completeness + relevance) / 3
        let notes :=
          (if relevance < 1 then ["Time range or metric differed from expected."] else []) ++
          (if correctness < 1 then
            ["Top list mismatch: " ++ toString matchCount ++ "/" ++ toString n ++ " rows match."]
          else [])
        { correctness := correctness, completeness := completeness,
          relevance := relevance, quality := quality, notes := notes }

/-- Embeds `evaluateTimeseries`. -/
def evaluateTimeseries (toolCalls : List EvalToolCall) (spec : TimeseriesSpec) : EvalScores :=
  match toolCalls.find? (fun c => c.tool = "timeseries") with
  | none =>
    { correctness := 0, completeness := 0, relevance := 0, quality := 0,
      notes := ["Missing timeseries call."] }
  | some call =>
    let relevance := relevanceOfArgs call.args spec.metric spec.startDate spec.endDate
    match call.result.bind (fun r => r.series) with
    | none =>
      { correctness := 0, completeness := (0.2 : ℚ), relevance := relevance,
        quality := (0 + (0.2 : ℚ) + relevance) / 3, notes := ["Empty series."] }
    | some series =>
      if series.isEmpty then
        { correctness := 0, completeness := (0.2 : ℚ), relevance := relevance,
          quality := (0 + (0.2 : ℚ) + relevance) / 3, notes := ["Empty series."] }
      else
        let expectedCount := match call.args.bind (fun a => a.productIds) with
          | some ids => ids.length
          | none => series.length
        let completeness : ℚ :=
          if 0 < expectedCount then min 1 ((series.length : ℚ) / (expectedCount : ℚ))
          else (0.5 : ℚ)
        let totalPoints := (series.map (fun s => (s.points.getD []).length)).sum
        let inRangePoints := (series.map (fun s => (s.points.getD []).countP (fun p =>
          strLeB spec.startDate p.date && strLeB p.date spec.endDate))).sum
        let correctness : ℚ :=
          if 0 < totalPoints then (inRangePoints : ℚ) / (totalPoints : ℚ) else (0.5 : ℚ)
        let quality := (correctness + completeness + relevance) / 3
        let notes :=
          (if relevance < 1 then ["Metric or time range differed from expected."] else []) ++
          (if correctness < 1 then ["Some points were outside the expected range."] else [])
        { correctness := correctness, completeness := completeness,
          relevance := relevance, quality := quality, notes := notes }

/-- Embeds `argsMatchTopProducts(args, metric, startDate, endDate)`. -/
def argsMatchTopProducts (args : Option EvalCallArgs) (metric startDate endDate : String) : Bool :=
  match args with
  | some a => a.metric = metric && a.startDate = startDate && a.endDate = endDate
  | none => false

/-- Embeds `firstTopProductId(call)`: `call.result?.rows?.[0]?.productId`. -/
def firstTopProductId (call : EvalToolCall) : Option String :=
  (call.result.bind (fun r => r.rows)).bind (fun rows => rows.head?.map (fun r => r.productId))

/-- JS truthiness of an optional string (`undefined` and `""` are falsy). -/
def truthyStr (o : Option String) : Bool :=
  match o with
  | some s => !(s.isEmpty)
  | none => false

/-- Embeds `evaluateWhyDropWoW`. `expectedThis` / `expectedLast` are the
ground-truth weekly leader product ids obtained by re-executing
`top_products` with limit 1 on the dataset (`rows[0]?.productId`). -/
def evaluateWhyDropWoW (expectedThis expectedLast : Option String)
    (toolCalls : List EvalToolCall) (spec : WhyDropSpec) : EvalScores :=
  let hasTimeseries := toolCalls.any (fun c => c.tool = "timeseries")
  let hasChanges := toolCalls.any (fun c => c.tool = "compute_changes")
  let topCalls := toolCalls.filter (fun c => c.tool = "top_products")
  let thisWeek := topCalls.find? (fun c =>
    argsMatchTopProducts c.args spec.metric spec.thisWeekStart spec.thisWeekEnd)
  let lastWeek := topCalls.find? (fun c =>
    argsMatchTopProducts c.args spec.metric spec.lastWeekStart spec.lastWeekEnd)
  let hasTopComparison := thisWeek.isSome && lastWeek.isSome
  let relevance : ℚ := if hasTopComparison || (hasTimeseries && hasChanges) then 1 else (0.5 : ℚ)
  let comp1 : ℚ := if hasTopComparison then (0.8 : ℚ) else 0
  let comp2 : ℚ := if hasTimeseries then max comp1 (0.5 : ℚ) else comp1
  let comp3 : ℚ := if hasChanges then max comp2 (0.3 : ℚ) else comp2
  let completeness : ℚ := if hasTimeseries && hasChanges then max comp3 (0.9 : ℚ) else comp3
  let correctnessAndNotes : ℚ × List String :=
    match thisWeek, lastWeek with
    | some tw, some lw =>
      let checks : List (String × Option String × Option String) :=
        [("thisWeek", expectedThis, firstTopProductId tw),
         ("lastWeek", expectedLast, firstTopProductId lw)]
      let comparable := checks.filter (fun c => truthyStr c.2.1 && truthyStr c.2.2)
      let matchCount := comparable.countP (fun c => c.2.1 = c.2.2)
      let correctness : ℚ :=
        if 0 < comparable.length then (matchCount : ℚ) / (comparable.length : ℚ) else (0.6 : ℚ)
      (correctness, (comparable.filter (fun c => !(c.2.1 = c.2.2 : Bool))).map
        (fun c => "Top product mismatch for " ++ c.1 ++ "."))
    | _, _ =>
      if hasTimeseries && hasChanges then ((0.6 : ℚ), []) else ((0.2 : ℚ), [])
  let correctness := correctnessAndNotes.1
  let notes := correctnessAndNotes.2 ++
    (if !hasTopComparison && !(hasTimeseries && hasChanges) then
      ["Missing top_products comparison for last week vs this week."] else []) ++
    (if hasTopComparison then
      (if !hasTimeseries && !hasChanges then
        ["No timeseries/compute_changes drilldown; used weekly comparisons only."] else [])
    else
      (if !hasTimeseries then ["Missing timeseries call."] else []) ++
      (if !hasChanges then ["Missing compute_changes call."] else []))
  let quality := (correctness + completeness + relevance) / 3
  { correctness := correctness, completeness := completeness,
    relevance := relevance, quality := quality, notes := notes }

/-! ## Data presenter session update (`agents/dataPresenterAgent.ts`)

`DataPresenterAgent.run` copies the session, then — reading the *first*
`top_products` record of the executed tool calls — sets
`selectedProductIds` to the first 20 product ids of its rows when that
record has a non-empty `rows` array (`if (top?.length)`); the rendering
of the response text (locale-dependent number formatting) does not touch
the session and is not modelled. -/

structure SessionState where
  selectedProductIds : Option (List String)

/-- The session state returned by `DataPresenterAgent.run` given the
executed tool calls. -/
def dataPresenterNextSession (session : SessionState) (toolCalls : List EvalToolCall) :
    SessionState :=
  let top := ((toolCalls.find? (fun c => c.tool = "top_products")).bind
    (fun c => c.result)).bind (fun r => r.rows)
  match top with
  | some rows =>
    if rows.isEmpty then session
    else { session with selectedProductIds := some ((rows.map (fun r => r.productId)).take 20) }
  | none => session

/-! ## Orchestrator (`IaOrchestrator.runQuery`)

The state machine around one query. Collaborator outcomes that cross the
core's boundary are inputs of the model: the `ulid()` draw, the clock
readings, the augmented query (`@ia/data`), the manager decision, the
worker agent's outcome on the in-scope path, the serialized evaluator
scores and the proposed memory writes. Everything the orchestrator itself
does — memory retrieval per stage, the OOD early return, redaction,
recording the run — is embedded. Wall-clock latencies and the injected
memory snapshot are not modelled (they are dropped from the run record
here); no claim concerns them. -/

inductive MemoryMode where
  | baseline
  | read
  | readwrite
  | readwrite_cache
deriving DecidableEq

def memoryModeStr : MemoryMode → String
  | .baseline => "baseline"
  | .read => "read"
  | .readwrite => "readwrite"
  | .readwrite_cache => "readwrite_cache"

structure RunConfig where
  memoryMode : MemoryMode
  llmModel : Option String
  today : Option String

def configJson (c : RunConfig) : Json :=
  .obj ([("memoryMode", Json.str (memoryModeStr c.memoryMode))] ++
    (match c.llmModel with | some m => [("llmModel", Json.str m)] | none => []) ++
    (match c.today with | some t => [("today", Json.str t)] | none => []))

structure ManagerDecision where
  ood : Bool
  route : Option String
  reason : Option String

/-- The outcome of the worker agent (`DataPresenterAgent.run` /
`InsightGeneratorAgent.run`) on the in-scope path: plan, executed tool
calls (serialized), rendered response, planner flags and the session
state it returns. -/
structure WorkerOut where
  plan : Option Json
  toolCalls : Option Json
  responseText : String
  usedFallback : Bool
  plannerRaw : Option String
  session : SessionState

structure RunResult where
  id : String
  createdAt : String
  query : String
  augmentedQuery : String
  userId : String
  route : Option String
  ood : Bool
  responseText : String
  plan : Option Json
  toolCalls : Option Json
  evalJson : Option Json
  sessionState : SessionState

structure OrchestratorInput where
  query : String
  userId : String
  config : RunConfig
  session : SessionState
  runId : String
  createdAt : String
  augmentedQuery : String
  decision : ManagerDecision
  worker : WorkerOut
  scores : Option Json
  writes : List UpsertInput
  writeIds : List String
  nowIso : String

/-- The literal out-of-scope response of `IaOrchestrator.runQuery`. -/
def oodResponseText : String :=
  "Out of scope: I can help with seller analytics (sales, traffic, benchmarks)."

/-- Embeds `MemoryEvaluator.applyMemoryWrites`: one `upsertMemoryItem` per
write, each with an explicit fresh `ulid()` id (`ids` supplies the draws)
and the wall-clock timestamp `now`. -/
def applyMemoryWrites (db : IaStateStore) (writes : List UpsertInput) (ids : List String)
    (now : String) : IaStateStore :=
  match writes, ids with
  | [], _ => db
  | _ :: _, [] => db
  | w :: ws, i :: is =>
    applyMemoryWrites (upsertMemoryItem db { w with id := some i } now i).2 ws is now

/-- Embeds `IaOrchestrator.runQuery`. Stage order: manager-stage retrieval
(skipped on `baseline`), manager decision, then either the OOD early
return or the worker path (worker-stage retrieval, agent, redaction,
evaluation, optional memory writes plus maintenance), and finally the run
record insert. -/
def runQuery (db : IaStateStore) (ftsMatch : String → FtsRow → Bool)
    (bm25 : String → FtsRow → ℚ) (score : MemorySearchHit → ℚ)
    (inp : OrchestratorInput) : RunResult × IaStateStore :=
  let scopes := ["global", "user:" ++ inp.userId]
  let managerRet := retrieve db ftsMatch bm25 score 6 600 .manager_route inp.query [] scopes
    inp.nowIso
  let db1 := if inp.config.memoryMode = .baseline then db else managerRet.store
  if inp.decision.ood || inp.decision.route.isNone then
    let responseText := redactPII oodResponseText
    let result : RunResult := {
      id := inp.runId, createdAt := inp.createdAt, query := inp.query,
      augmentedQuery := inp.augmentedQuery, userId := inp.userId,
      route := none, ood := true, responseText := responseText,
      plan := none, toolCalls := none, evalJson := none,
      sessionState := inp.session }
    let db2 := insertRun db1 {
      id := inp.runId, createdAt := inp.createdAt, userId := inp.userId,
      config := configJson inp.config, query := inp.query,
      augmentedQuery := some inp.augmentedQuery, route := none, ood := some true,
      plan := none, toolCalls := none, response := some responseText,
      evalJson := none, latencies := none, memoryInjected := none }
    (result, db2)
  else
    let workerRet := retrieve db1 ftsMatch bm25 score 6 600 .workflow_plan inp.query [] scopes
      inp.nowIso
    let db2 := if inp.config.memoryMode = .baseline then db1 else workerRet.store
    let db3 :=
      if inp.decision.route = some "data_presenter" then db2
      else if inp.config.memoryMode = .baseline then db2
      else (retrieve db2 ftsMatch bm25 score 6 600 .insight_generate inp.query [] scopes
        inp.nowIso).store
    let sessionOut :=
      if inp.decision.route = some "data_presenter" then inp.worker.session else inp.session
    let responseText := redactPII inp.worker.responseText
    let db4 :=
      if inp.config.memoryMode = .readwrite || inp.config.memoryMode = .readwrite_cache then
        (maintenance (applyMemoryWrites db3 inp.writes inp.writeIds inp.nowIso) inp.nowIso).2
      else db3
    let result : RunResult := {
      id := inp.runId, createdAt := inp.createdAt, query := inp.query,
      augmentedQuery := inp.augmentedQuery, userId := inp.userId,
      route := inp.decision.route, ood := false, responseText := responseText,
      plan := inp.worker.plan, toolCalls := inp.worker.toolCalls,
      evalJson := inp.scores, sessionState := sessionOut }
    let db5 := insertRun db4 {
      id := inp.runId, createdAt := inp.createdAt, userId := inp.userId,
      config := configJson inp.config, query := inp.query,
      augmentedQuery := some inp.augmentedQuery, route := inp.decision.route,
      ood := some false, plan := inp.worker.plan, toolCalls := inp.worker.toolCalls,
      response := some responseText, evalJson := inp.scores,
      latencies := none, memoryInjected := none }
    (result, db5)

/-! ## Dedupe-triple predicate and upsert sequencing

Used to state the uniqueness invariant: `tripleP scope kind key` is the
row predicate of the unique index `(scope, kind, dedupe_key)`, and
`upsertStep` runs one `upsertMemoryItem` call (input plus its wall-clock
reading and `ulid()` draw) for its store effect. -/

def tripleP (scope kind key : String) (r : MemoryRow) : Bool :=
  r.scope = scope && r.kind = kind && r.dedupeKey = key

structure UpsertCall where
  input : UpsertInput
  now : String
  fresh : String

def upsertStep (db : IaStateStore) (c : UpsertCall) : IaStateStore :=
  (upsertMemoryItem db c.input c.now c.fresh).2

/-! ## Concrete fixtures

Concrete stores, calls and tool-call records used by the closed witness
and counterexample statements below. -/

def emptyStore : IaStateStore :=
  { runs := [], items := [], fts := [], toolCache := [] }

/-- First dedupe-sequence call: explicit id `m1`. -/
def c2CallA : UpsertCall :=
  { input :=
    { id := some "m1", scope := "user:demo", kind := "query_pattern",
      text := "Top products by sales", meta := none, createdAt := none,
      lastUsedAt := none, useCount := none, importance := none, quality := none,
      expiresAt := none, dedupeKey := none },
    now := "t1", fresh := "f1" }

/-- Second dedupe-sequence call: same text up to case and spacing. -/
def c2CallB : UpsertCall :=
  { input :=
    { id := some "m2", scope := "user:demo", kind := "query_pattern",
      text := "  top   PRODUCTS by sales ", meta := none, createdAt := none,
      lastUsedAt := none, useCount := none, importance := none, quality := none,
      expiresAt := none, dedupeKey := none },
    now := "t2", fresh := "f2" }

/-- The dedupe key both calls above normalize to (the sha-256 preimage,
under the injective hash placeholder). -/
def c2Key : String := "query_pattern:top products by sales"

/-- A store holding one row at the `c2Key` triple with `useCount = 5`. -/
def c3Row : MemoryRow :=
  { id := "m1", scope := "user:demo", kind := "query_pattern",
    text := "top products by sales", meta := Json.obj [], dedupeKey := c2Key,
    createdAt := "t0", lastUsedAt := "t0", useCount := 5, importance := 1,
    quality := 1, expiresAt := none }

def c3Store : IaStateStore :=
  { runs := [], items := [c3Row],
    fts := [{ id := "m1", text := "top products by sales", kind := "query_pattern",
              scope := "user:demo" }],
    toolCache := [] }

/-- A colliding upsert against `c3Store` (evaluator-style input: explicit
fresh id, `useCount` omitted so the source default 0 applies). -/
def c3Input : UpsertInput :=
  { id := some "m9", scope := "user:demo", kind := "query_pattern",
    text := "Top   products by sales", meta := none, createdAt := none,
    lastUsedAt := none, useCount := none, importance := none, quality := none,
    expiresAt := none, dedupeKey := none }

/-- A `top_products` record whose call returned an empty `rows` array. -/
def c1EmptyCall : EvalToolCall :=
  { tool := "top_products",
    args := some { metric := "sales", startDate := "2026-01-01",
                   endDate := "2026-01-31", productIds := none },
    result := some { rows := some [], series := none } }

def c1Spec : TopProductsSpec :=
  { metric := "sales", limit := 10, startDate := "2026-01-01", endDate := "2026-01-31" }

def c1Expected : List TopRow :=
  [{ productId := "p1", metricValue := 5 }]

/-- Tool-call list whose first `top_products` record has empty rows while a
later one has a row. -/
def c10Calls : List EvalToolCall :=
  [{ tool := "top_products", args := none, result := some { rows := some [], series := none } },
   { tool := "top_products", args := none,
     result := some { rows := some [{ productId := "p1", metricValue := 1 }], series := none } }]

/-- Tool-call list with one non-empty `top_products` record first. -/
def c10CallsB : List EvalToolCall :=
  [{ tool := "top_products", args := none,
     result := some { rows := some [{ productId := "p1", metricValue := 1 },
                                    { productId := "p2", metricValue := 2 }],
                      series := none } }]

/-- An orchestrator input whose manager decision is out-of-domain. -/
def c9Input : OrchestratorInput :=
  { query := "What is the weather tomorrow", userId := "demo",
    config := { memoryMode := .read, llmModel := none, today := some "2026-02-04" },
    session := { selectedProductIds := none },
    runId := "r1", createdAt := "t1",
    augmentedQuery := "What is the weather tomorrow [ctx]",
    decision := { ood := true, route := none, reason := some "Out of scope for seller analytics." },
    worker := { plan := none, toolCalls := none, responseText := "", usedFallback := true,
                plannerRaw := none, session := { selectedProductIds := none } },
    scores := none, writes := [], writeIds := [], nowIso := "t1" }

/-! ## Helper lemmas -/

theorem mem_insertLe {α : Type} (le : α → α → Bool) (x : α) (l : List α) (a : α) :
    a ∈ insertLe le x l ↔ a = x ∨ a ∈ l := by
  induction l with
  | nil => simp [insertLe]
  | cons y ys ih =>
    by_cases h : le x y = true
    · simp [insertLe, h]
    · simp only [insertLe, h]
      simp [ih]
      tauto

theorem mem_insertionSort {α : Type} (le : α → α → Bool) (l : List α) (a : α) :
    a ∈ insertionSort le l ↔ a ∈ l := by
  induction l with
  | nil => simp [insertionSort]
  | cons y ys ih =>
    simp only [insertionSort, List.foldr] at *
    rw [mem_insertLe]
    simp [ih]

theorem length_insertLe {α : Type} (le : α → α → Bool) (x : α) (l : List α) :
    (insertLe le x l).length = l.length + 1 := by
  induction l with
  | nil => simp [insertLe]
  | cons y ys ih =>
    by_cases h : le x y = true
    · simp [insertLe, h]
    · simp [insertLe, h, ih]

theorem length_insertionSort {α : Type} (le : α → α → Bool) (l : List α) :
    (insertionSort le l).length = l.length := by
  induction l with
  | nil => rfl
  | cons y ys ih =>
    simp only [insertionSort, List.foldr] at *
    rw [length_insertLe, ih]
    rfl

theorem find?_map_pres {α : Type} (f : α → α) (p : α → Bool)
    (h : ∀ a, p (f a) = p a) (l : List α) :
    (l.map f).find? p = (l.find? p).map f := by
  induction l with
  | nil => rfl
  | cons x xs ih =>
    by_cases hx : p x = true
    · simp [List.find?_cons, h x, hx]
    · simp only [Bool.not_eq_true] at hx
      simp [List.find?_cons, h x, hx, ih]

theorem filter_map_pres {α : Type} (f : α → α) (p : α → Bool)
    (h : ∀ a, p (f a) = p a) (l : List α) :
    (l.map f).filter p = (l.filter p).map f := by
  induction l with
  | nil => rfl
  | cons x xs ih =>
    by_cases hx : p x = true
    · simp [List.filter_cons, h x, hx, ih]
    · simp only [Bool.not_eq_true] at hx
      simp [List.filter_cons, h x, hx, ih]

theorem find?_of_filter_singleton {α : Type} (p : α → Bool) (l : List α) (x : α)
    (h : l.filter p = [x]) : l.find? p = some x := by
  induction l with
  | nil => simp at h
  | cons y ys ih =>
    by_cases hy : p y = true
    · rw [List.filter_cons_of_pos hy] at h
      injection h with h1 h2
      rw [List.find?_cons_of_pos _ hy, h1]
    · simp only [Bool.not_eq_true] at hy
      rw [List.filter_cons_of_neg (by simp [hy])] at h
      rw [List.find?_cons, hy]
      exact ih h

theorem find?_eq_none_of_filter_nil {α : Type} (p : α → Bool) (l : List α)
    (h : l.filter p = []) : l.find? p = none := by
  rw [List.find?_eq_none]
  intro x hx
  rw [List.filter_eq_nil_iff] at h
  exact fun hp => h x hx hp

/-! ## C4: signature stability -/

/-- C4: for every tool name and every pair of args values with equal
stable stringification (in particular JSON objects differing only in key
order at any nesting depth), `toolSignature` agrees, for every namespace. -/
theorem c4_signature_stability (tool : String) (ns : Option String) (a b : Json)
    (h : stableStringify a = stableStringify b) :
    toolSignature tool a ns = toolSignature tool b ns := by
  unfold toolSignature
  rw [h]

/-- C4 witness: two args objects differing only in key order, at the top
level and inside a nested object, yield the same signature (namespace
present). -/
theorem c4_signature_stability_witness :
    stableStringify (.obj [("beta", .num 1), ("alpha", .obj [("y", .num 2), ("x", .num 3)])]) =
      stableStringify (.obj [("alpha", .obj [("x", .num 3), ("y", .num 2)]), ("beta", .num 1)]) ∧
    toolSignature ("top_products")
        (.obj [("beta", .num 1), ("alpha", .obj [("y", .num 2), ("x", .num 3)])])
        (some ("toolcache")) =
      toolSignature ("top_products")
        (.obj [("alpha", .obj [("x", .num 3), ("y", .num 2)]), ("beta", .num 1)])
        (some ("toolcache")) :=
  ⟨by decide, c4_signature_stability _ _ _ _ (by decide)⟩

/-! ## C8: tool-cache round trip -/

/-- C8: after `setToolCache(tool, signature, args, result)`, reading
`getToolCache(signature)` returns the entry written by that call: its
timestamp, and a stored result whose canonical serialization is exactly
`stableStringify result` — i.e. the value obtained by re-parsing it is
JSON-equivalent (equal after canonical stringification) to the stored
result. This holds for every prior cache state, in particular when the
signature already had an entry (the upsert overwrites it). -/
theorem c8_cache_round_trip (db : IaStateStore) (tool sig : String) (args result : Json)
    (now : String) :
    getToolCache (setToolCache db tool sig args result now) sig =
      some (now, stableStringify result) := by
  unfold getToolCache setToolCache
  by_cases h : db.toolCache.any (fun r => r.signature = sig) = true
  · simp only [h, if_true]
    rw [find?_map_pres _ _ (fun r => by by_cases hp : r.signature = sig <;> simp [hp])]
    rw [List.any_eq_true] at h
    obtain ⟨r, hrmem, hrp⟩ := h
    have hsome : (db.toolCache.find? (fun r => r.signature = sig)).isSome := by
      rw [List.find?_isSome]
      exact ⟨r, hrmem, hrp⟩
    obtain ⟨r0, hr0⟩ := Option.isSome_iff_exists.mp hsome
    have hr0p := List.find?_some hr0
    simp only [decide_eq_true_eq] at hr0p
    simp [hr0, hr0p]
  · simp only [h, Bool.false_eq_true, if_false]
    rw [Bool.not_eq_true, List.any_eq_false] at h
    have hnone : db.toolCache.find? (fun r => r.signature = sig) = none := by
      rw [List.find?_eq_none]
      exact h
    rw [List.find?_append, hnone]
    simp [List.find?_cons]

/-! ## C5: search honors TTL expiry -/

/-- C5: for every store, FTS oracle, BM25 ranking and search options, every
hit returned by `searchMemory` has a null `expiresAt` or one strictly
later than the call's `nowIso` — an item with `expiresAt ≤ nowIso` never
appears, regardless of query, scopes, kinds, or limit. -/
theorem c5_search_honors_ttl (db : IaStateStore) (ftsMatch : String → FtsRow → Bool)
    (bm25 : String → FtsRow → ℚ) (opts : SearchOpts) :
    (searchMemory db ftsMatch bm25 opts).all (fun h =>
      match h.expiresAt with
      | none => true
      | some e => strLtB opts.nowIso e) = true := by
  rw [List.all_eq_true]
  intro hit hmem
  unfold searchMemory at hmem
  simp only [List.mem_map] at hmem
  obtain ⟨fm, hfm, rfl⟩ := hmem
  have hfm2 := List.mem_of_mem_take hfm
  rw [mem_insertionSort] at hfm2
  have hcond := List.of_mem_filter hfm2
  simp only [Bool.and_eq_true] at hcond
  obtain ⟨⟨hexp, _⟩, _⟩ := hcond
  simpa using hexp

/-! ## C6: leverager caps -/

theorem length_jsSlice (s : String) (n : Nat) : (jsSlice s n).length ≤ n := by
  have : (jsSlice s n).length = (s.data.take n).length := rfl
  rw [this, List.length_take]
  exact min_le_left _ _

theorem renderCard_text_length (hit : MemorySearchHit) (score : ℚ) (maxChars : Nat)
    (h : 1 ≤ maxChars) : (renderCard hit score maxChars).text.length ≤ maxChars := by
  unfold renderCard
  simp only
  split
  · rw [String.length_append]
    have h1 := length_jsSlice
      ("MEMORY CARD [" ++ hit.kind ++ "] (" ++ hit.scope ++ ")" ++ "\n" ++
        jsTrim (String.mk (collapseNlAux [] hit.text.data)) ++ "\n" ++
        ("Signals: q=" ++ qToFixed2 hit.quality ++ " imp=" ++ qToFixed2 hit.importance
          ++ " used=" ++ toString hit.useCount ++ " last=" ++ jsSlice hit.lastUsedAt 10))
      (maxChars - 1)
    have h2 : ("…" : String).length = 1 := rfl
    omega
  · omega

/-- C6: for every store, oracle, scorer and input, `MemoryLeverager.retrieve`
returns at most `k` cards (default 6), each rendered card's text at most
`maxCardChars` chars (default 600) — the truncation suffix included.
(The degenerate configuration `maxCardChars = 0` is outside the claim;
any configuration of at least one char satisfies the bound.) -/
theorem c6_leverager_caps (db : IaStateStore) (ftsMatch : String → FtsRow → Bool)
    (bm25 : String → FtsRow → ℚ) (score : MemorySearchHit → ℚ) (k maxCardChars : Nat)
    (stage : MemoryStage) (query : String) (entities scopes : List String) (nowIso : String)
    (hmax : 1 ≤ maxCardChars) :
    (retrieve db ftsMatch bm25 score k maxCardChars stage query entities scopes nowIso).cards.length ≤ k ∧
    ∀ c ∈ (retrieve db ftsMatch bm25 score k maxCardChars stage query entities scopes nowIso).cards,
      c.text.length ≤ maxCardChars := by
  constructor
  · show (List.map _ (List.take k _)).length ≤ k
    rw [List.length_map, List.length_take]
    exact min_le_left _ _
  · intro c hc
    simp only [retrieve, List.mem_map] at hc
    obtain ⟨hs, _, rfl⟩ := hc
    exact renderCard_text_length hs.1 hs.2 maxCardChars hmax

/-- C6 witness: at the default configuration `k = 6`, `maxCardChars = 600`,
on a concrete store and oracles, the caps hold. -/
theorem c6_leverager_caps_witness :
    1 ≤ 600 ∧
    ((retrieve { runs := [], items := [], fts := [], toolCache := [] }
        (fun _ _ => true) (fun _ _ => 0) (fun _ => 0) 6 600 .workflow_plan
        ("top products by sales") [] ["global"] ("2026-02-04T00:00:00.000Z")).cards.length ≤ 6 ∧
      ∀ c ∈ (retrieve { runs := [], items := [], fts := [], toolCache := [] }
        (fun _ _ => true) (fun _ _ => 0) (fun _ => 0) 6 600 .workflow_plan
        ("top products by sales") [] ["global"] ("2026-02-04T00:00:00.000Z")).cards,
        c.text.length ≤ 600) :=
  ⟨by decide, c6_leverager_caps _ _ _ _ 6 600 _ _ _ _ _ (by decide)⟩

/-! ## C7: hybrid score monotonicity -/

/-- C7: the hit score `0.55·ftsRank + 0.25·exp(-age/14d) + 0.15·importance
+ 0.05·log1p(useCount)` is monotone in each signal with the others held
fixed: non-decreasing in `ftsRank`, `importance` and `useCount` (counts
are non-negative), and non-increasing in the age entering the recency
term. -/
theorem c7_score_monotone :
    (∀ f f2 a i u : ℝ, f ≤ f2 → scoreHit f a i u ≤ scoreHit f2 a i u) ∧
    (∀ f a i i2 u : ℝ, i ≤ i2 → scoreHit f a i u ≤ scoreHit f a i2 u) ∧
    (∀ f a i u u2 : ℝ, 0 ≤ u → u ≤ u2 → scoreHit f a i u ≤ scoreHit f a i u2) ∧
    (∀ f a a2 i u : ℝ, a ≤ a2 → scoreHit f a2 i u ≤ scoreHit f a i u) := by
  have hT : (0 : ℝ) < TWO_WEEKS_MS := by norm_num [TWO_WEEKS_MS]
  refine ⟨?_, ?_, ?_, ?_⟩
  · intro f f2 a i u h
    unfold scoreHit
    have : (0.55 : ℝ) * f ≤ 0.55 * f2 := by nlinarith
    linarith
  · intro f a i i2 u h
    unfold scoreHit
    have : (0.15 : ℝ) * i ≤ 0.15 * i2 := by nlinarith
    linarith
  · intro f a i u u2 h0 h
    unfold scoreHit
    have hlog : Real.log (1 + u) ≤ Real.log (1 + u2) :=
      Real.log_le_log (by linarith) (by linarith)
    have : (0.05 : ℝ) * Real.log (1 + u) ≤ 0.05 * Real.log (1 + u2) := by nlinarith
    linarith
  · intro f a a2 i u h
    unfold scoreHit
    have hdiv : a / TWO_WEEKS_MS ≤ a2 / TWO_WEEKS_MS := by
      gcongr
    have hexp : Real.exp (-(a2 / TWO_WEEKS_MS)) ≤ Real.exp (-(a / TWO_WEEKS_MS)) :=
      Real.exp_le_exp.mpr (by linarith)
    have : (0.25 : ℝ) * Real.exp (-(a2 / TWO_WEEKS_MS)) ≤
        0.25 * Real.exp (-(a / TWO_WEEKS_MS)) := by nlinarith
    linarith

/-- C7 witness: concrete instances of all four monotonicity directions. -/
theorem c7_score_monotone_witness :
    ((0 : ℝ) ≤ 1 ∧ scoreHit 0 2 3 4 ≤ scoreHit 1 2 3 4) ∧
    ((0 : ℝ) ≤ 1 ∧ scoreHit 2 3 0 4 ≤ scoreHit 2 3 1 4) ∧
    ((0 : ℝ) ≤ 0 ∧ (0 : ℝ) ≤ 1 ∧ scoreHit 2 3 4 0 ≤ scoreHit 2 3 4 1) ∧
    ((0 : ℝ) ≤ 1 ∧ scoreHit 2 1 3 4 ≤ scoreHit 2 0 3 4) :=
  ⟨⟨zero_le_one, c7_score_monotone.1 0 1 2 3 4 zero_le_one⟩,
   ⟨zero_le_one, c7_score_monotone.2.1 2 3 0 1 4 zero_le_one⟩,
   ⟨le_refl 0, zero_le_one, c7_score_monotone.2.2.1 2 3 4 0 1 (le_refl 0) zero_le_one⟩,
   ⟨zero_le_one, c7_score_monotone.2.2.2 2 0 1 3 4 zero_le_one⟩⟩

/-! ## C2: dedupe uniqueness and id stability -/

theorem upsert_pred_eq (scope kind key : String) (c : UpsertCall)
    (hs : c.input.scope = scope) (hk : c.input.kind = kind)
    (hd : c.input.dedupeKey = none)
    (hkey : dedupeKeyOf kind (redactPII c.input.text) = key) :
    (fun r : MemoryRow => r.scope = c.input.scope && r.kind = c.input.kind &&
      r.dedupeKey = (c.input.dedupeKey.getD (dedupeKeyOf c.input.kind (redactPII c.input.text))))
      = tripleP scope kind key := by
  funext r
  rw [hs, hk, hd]
  simp only [Option.getD_none]
  rw [hkey]
  rfl

theorem upsert_insert_case (scope kind key : String) (db : IaStateStore) (c : UpsertCall)
    (hs : c.input.scope = scope) (hk : c.input.kind = kind)
    (hd : c.input.dedupeKey = none)
    (hkey : dedupeKeyOf kind (redactPII c.input.text) = key)
    (h0 : db.items.filter (tripleP scope kind key) = []) :
    ∃ r1, (upsertStep db c).items.filter (tripleP scope kind key) = [r1] ∧
      r1.id = c.input.id.getD c.fresh := by
  unfold upsertStep upsertMemoryItem
  simp only
  rw [upsert_pred_eq scope kind key c hs hk hd hkey,
    find?_eq_none_of_filter_nil _ _ h0]
  simp only
  have hpos : tripleP scope kind key
      { id := c.input.id.getD c.fresh, scope := c.input.scope, kind := c.input.kind,
        text := redactPII c.input.text, meta := c.input.meta.getD (Json.obj []),
        dedupeKey := c.input.dedupeKey.getD (dedupeKeyOf c.input.kind (redactPII c.input.text)),
        createdAt := c.input.createdAt.getD c.now, lastUsedAt := c.input.lastUsedAt.getD c.now,
        useCount := c.input.useCount.getD 0,
        importance := clamp01 (c.input.importance.getD (0.3 : ℚ)),
        quality := clamp01 (c.input.quality.getD (0.5 : ℚ)),
        expiresAt := c.input.expiresAt } = true := by
    unfold tripleP
    simp only [hs, hk, hd, Option.getD_none, hkey]
    simp
  exact ⟨_, by
    rw [List.filter_append, h0, List.filter_cons_of_pos hpos]
    simp only [List.filter_nil, List.nil_append]
    rfl, by rfl⟩

theorem upsert_update_case (scope kind key : String) (db : IaStateStore) (c : UpsertCall)
    (r : MemoryRow)
    (hs : c.input.scope = scope) (hk : c.input.kind = kind)
    (hd : c.input.dedupeKey = none)
    (hkey : dedupeKeyOf kind (redactPII c.input.text) = key)
    (h1 : db.items.filter (tripleP scope kind key) = [r]) :
    ∃ r2, (upsertStep db c).items.filter (tripleP scope kind key) = [r2] ∧
      r2.id = r.id := by
  unfold upsertStep upsertMemoryItem
  simp only
  rw [upsert_pred_eq scope kind key c hs hk hd hkey,
    find?_of_filter_singleton _ _ _ h1]
  simp only
  exact ⟨_,
    by rw [filter_map_pres _ _ (fun x => by unfold updateRow tripleP; split <;> rfl), h1, List.map_cons, List.map_nil],
    by unfold updateRow; split <;> rfl⟩

theorem upsert_seq_aux (scope kind key : String) (pre : List UpsertCall) :
    ∀ (db : IaStateStore) (r : MemoryRow),
    (∀ c ∈ pre, c.input.scope = scope ∧ c.input.kind = kind ∧ c.input.dedupeKey = none ∧
      dedupeKeyOf kind (redactPII c.input.text) = key) →
    db.items.filter (tripleP scope kind key) = [r] →
    ((List.foldl upsertStep db pre).items.filter (tripleP scope kind key)).map
      (fun x => x.id) = [r.id] := by
  induction pre with
  | nil =>
    intro db r _ h1
    simp [h1]
  | cons c cs ih =>
    intro db r hAll h1
    obtain ⟨hs, hk, hd, hkey⟩ := hAll c (List.mem_cons_self c cs)
    obtain ⟨r2, h2, hid⟩ := upsert_update_case scope kind key db c r hs hk hd hkey h1
    rw [List.foldl_cons]
    rw [ih (upsertStep db c) r2 (fun x hx => hAll x (List.mem_cons_of_mem c hx)) h2, hid]

/-- C2: for any sequence of `upsertMemoryItem` calls with equal scope,
equal kind, no explicit dedupe key, and texts whose PII-redacted,
normalized form (trim, lowercase, whitespace-collapse, 2000-char cap)
yields one dedupe key, the store holds exactly one `memory_items` row at
that `(scope, kind, dedupeKey)` triple after each call — provided none
existed before — and that row's id is the id the first insert assigned
(the supplied id, or the fresh ulid), preserved across all later
updates. -/
theorem c2_dedupe_unique (scope kind key : String) (db0 : IaStateStore)
    (first : UpsertCall) (rest : List UpsertCall)
    (hAll : ∀ c ∈ first :: rest, c.input.scope = scope ∧ c.input.kind = kind ∧
      c.input.dedupeKey = none ∧ dedupeKeyOf kind (redactPII c.input.text) = key)
    (h0 : db0.items.filter (tripleP scope kind key) = [])
    (pre : List UpsertCall) (hpre : pre <+: rest) :
    ((List.foldl upsertStep (upsertStep db0 first) pre).items.filter
        (tripleP scope kind key)).map (fun x => x.id) =
      [first.input.id.getD first.fresh] := by
  obtain ⟨hs, hk, hd, hkey⟩ := hAll first (List.mem_cons_self first rest)
  obtain ⟨r1, h1, hid1⟩ := upsert_insert_case scope kind key db0 first hs hk hd hkey h0
  rw [upsert_seq_aux scope kind key pre (upsertStep db0 first) r1
    (fun x hx => hAll x (List.mem_cons_of_mem first (hpre.subset hx))) h1, hid1]

/-- C2 witness: two calls in one scope and kind whose texts differ only in
case and spacing (equal normalized dedupe key) run against an empty
store; after both calls exactly one row exists at the triple and it keeps
the id `m1` assigned by the first insert. -/
theorem c2_dedupe_unique_witness :
    (∀ c ∈ [c2CallA, c2CallB],
      c.input.scope = "user:demo" ∧ c.input.kind = "query_pattern" ∧
        c.input.dedupeKey = none ∧
        dedupeKeyOf ("query_pattern") (redactPII c.input.text) = c2Key) ∧
    emptyStore.items.filter (tripleP "user:demo" "query_pattern" c2Key) = [] ∧
    ((List.foldl upsertStep (upsertStep emptyStore c2CallA) [c2CallB]).items.filter
        (tripleP "user:demo" "query_pattern" c2Key)).map (fun x => x.id) = ["m1"] :=
  ⟨by decide, rfl,
    c2_dedupe_unique "user:demo" "query_pattern" c2Key emptyStore c2CallA [c2CallB]
      (by decide) rfl [c2CallB] (List.prefix_refl _)⟩

/-! ## C3: upsert collision and use counters -/

/-- C3 counterexample: a colliding `upsertMemoryItem` call against a row
with `useCount = 5` (and a `useCount`-less input, as the evaluator's write
path produces) leaves the row with `useCount = 0` — not strictly greater
than before: the UPDATE overwrites `use_count` with `input.useCount ?? 0`. -/
theorem c3_use_count_counterexample :
    (c3Store.items.find? (fun x => x.scope = c3Input.scope && x.kind = c3Input.kind &&
      x.dedupeKey = (c3Input.dedupeKey.getD
        (dedupeKeyOf c3Input.kind (redactPII c3Input.text))))).isSome = true ∧
    c3Store.items.map (fun r => r.useCount) = [5] ∧
    ((upsertMemoryItem c3Store c3Input "t9" "f9").2.items.map (fun r => r.useCount) = [0]) ∧
    ¬ ((0 : Nat) > 5) := by
  refine ⟨by decide, by decide, by decide, by decide⟩

/-- C3 amended: when an `upsertMemoryItem` call hits an existing row at the
same `(scope, kind, dedupeKey)`, the row keeps its id, and its `useCount`
after the call equals the input's `useCount` (0 when the input omits it) —
the UPDATE overwrites the counter rather than incrementing it
(`markMemoryUsed` on the retrieval path is what increments counters). -/
theorem c3_use_count_overwrite (db : IaStateStore) (input : UpsertInput) (now fresh : String)
    (r : MemoryRow)
    (h : db.items.find? (fun x => x.scope = input.scope && x.kind = input.kind &&
      x.dedupeKey = (input.dedupeKey.getD (dedupeKeyOf input.kind (redactPII input.text))))
      = some r) :
    (upsertMemoryItem db input now fresh).1.id = r.id ∧
    ∀ x ∈ (upsertMemoryItem db input now fresh).2.items, x.id = r.id →
      x.useCount = input.useCount.getD 0 := by
  unfold upsertMemoryItem
  simp only
  rw [h]
  simp only
  constructor
  · trivial
  · intro x hx hid
    rw [List.mem_map] at hx
    obtain ⟨y, _, rfl⟩ := hx
    unfold updateRow at hid ⊢
    by_cases hy : y.id = r.id
    · simp only [hy, if_true]
    · simp only [hy, Bool.false_eq_true, if_false] at hid

/-- C3 witness: the amended statement at the concrete colliding call. -/
theorem c3_use_count_overwrite_witness :
    (c3Store.items.find? (fun x => x.scope = c3Input.scope && x.kind = c3Input.kind &&
      x.dedupeKey = (c3Input.dedupeKey.getD
        (dedupeKeyOf c3Input.kind (redactPII c3Input.text)))) = some c3Row) ∧
    (upsertMemoryItem c3Store c3Input "t9" "f9").1.id = c3Row.id ∧
    ∀ x ∈ (upsertMemoryItem c3Store c3Input "t9" "f9").2.items, x.id = c3Row.id →
      x.useCount = c3Input.useCount.getD 0 := by
  have h : c3Store.items.find? (fun x => x.scope = c3Input.scope && x.kind = c3Input.kind &&
      x.dedupeKey = (c3Input.dedupeKey.getD
        (dedupeKeyOf c3Input.kind (redactPII c3Input.text)))) = some c3Row := by rfl
  exact ⟨h, (c3_use_count_overwrite c3Store c3Input "t9" "f9" c3Row h).1,
    (c3_use_count_overwrite c3Store c3Input "t9" "f9" c3Row h).2⟩

/-! ## C1: quality is the mean of the sub-scores, except one branch -/

/-- C1 counterexample: a run whose `top_products` call returned an empty
`rows` array is scored `(0, 0, 0.2, 0.07)`, and `0.07` is not the
arithmetic mean `(0 + 0 + 0.2) / 3 = 1/15` — the claimed identity fails on
exactly the branch the spec fixes at those values. -/
theorem c1_quality_mean_counterexample :
    evaluateTopProducts c1Expected [c1EmptyCall] c1Spec =
      { correctness := 0, completeness := 0, relevance := (0.2 : ℚ),
        quality := (0.07 : ℚ), notes := ["Empty tool result."] } ∧
    (evaluateTopProducts c1Expected [c1EmptyCall] c1Spec).quality ≠
      ((evaluateTopProducts c1Expected [c1EmptyCall] c1Spec).correctness +
       (evaluateTopProducts c1Expected [c1EmptyCall] c1Spec).completeness +
       (evaluateTopProducts c1Expected [c1EmptyCall] c1Spec).relevance) / 3 := by
  have h : evaluateTopProducts c1Expected [c1EmptyCall] c1Spec =
      { correctness := 0, completeness := 0, relevance := (0.2 : ℚ),
        quality := (0.07 : ℚ), notes := ["Empty tool result."] } := by rfl
  refine ⟨h, ?_⟩
  rw [h]
  norm_num

/-- C1 amended: every `EvalScores` the evaluator returns satisfies
`quality = (correctness + completeness + relevance) / 3`, on every branch
of all three scorers — except the empty-rows branch of `top_products`
evaluation, which returns exactly `(0, 0, 0.2, 0.07)` with the hard-coded
rounding `0.07` in place of the mean `1/15`. -/
theorem c1_quality_mean_amended :
    (∀ (expected : List TopRow) (calls : List EvalToolCall) (spec : TopProductsSpec),
      (evaluateTopProducts expected calls spec).quality =
        ((evaluateTopProducts expected calls spec).correctness +
         (evaluateTopProducts expected calls spec).completeness +
         (evaluateTopProducts expected calls spec).relevance) / 3 ∨
      ((evaluateTopProducts expected calls spec).correctness = 0 ∧
       (evaluateTopProducts expected calls spec).completeness = 0 ∧
       (evaluateTopProducts expected calls spec).relevance = (0.2 : ℚ) ∧
       (evaluateTopProducts expected calls spec).quality = (0.07 : ℚ))) ∧
    (∀ (calls : List EvalToolCall) (spec : TimeseriesSpec),
      (evaluateTimeseries calls spec).quality =
        ((evaluateTimeseries calls spec).correctness +
         (evaluateTimeseries calls spec).completeness +
         (evaluateTimeseries calls spec).relevance) / 3) ∧
    (∀ (expectedThis expectedLast : Option String) (calls : List EvalToolCall)
        (spec : WhyDropSpec),
      (evaluateWhyDropWoW expectedThis expectedLast calls spec).quality =
        ((evaluateWhyDropWoW expectedThis expectedLast calls spec).correctness +
         (evaluateWhyDropWoW expectedThis expectedLast calls spec).completeness +
         (evaluateWhyDropWoW expectedThis expectedLast calls spec).relevance) / 3) := by
  refine ⟨?_, ?_, ?_⟩
  · intro expected calls spec
    unfold evaluateTopProducts
    split
    · left
      norm_num
    · split
      · right
        exact ⟨rfl, rfl, rfl, rfl⟩
      · split
        · right
          exact ⟨rfl, rfl, rfl, rfl⟩
        · left
          rfl
  · intro calls spec
    unfold evaluateTimeseries
    split
    · norm_num
    · split
      · rfl
      · split
        · rfl
        · rfl
  · intro expectedThis expectedLast calls spec
    unfold evaluateWhyDropWoW
    rfl

/-! ## C10: presenter session update -/

/-- C10 counterexample: the tool-call list `c10Calls` contains a
`top_products` record with a non-empty row (ids `["p1"]`), yet
`DataPresenterAgent.run` leaves the session unchanged, because the *first*
`top_products` record — the one `toolCalls.find` selects — has an empty
`rows` array. The claim's predicted update `some ["p1"]` does not happen. -/
theorem c10_session_counterexample :
    (c10Calls.any (fun c => c.tool = "top_products" &&
      !(((c.result.bind (fun r => r.rows)).getD []).isEmpty))) = true ∧
    ((c10Calls.filter (fun c => c.tool = "top_products" &&
        !(((c.result.bind (fun r => r.rows)).getD []).isEmpty))).map
      (fun c => (((c.result.bind (fun r => r.rows)).getD []).map
        (fun r => r.productId)).take 20)) = [["p1"]] ∧
    (dataPresenterNextSession { selectedProductIds := none } c10Calls).selectedProductIds
      = none ∧
    (none : Option (List String)) ≠ some ["p1"] := by
  refine ⟨by decide, by decide, by decide, by decide⟩

/-- C10 amended: `DataPresenterAgent.run` touches the session only through
`selectedProductIds`, and the update is keyed to the *first* `top_products`
record of the executed tool calls: when that record exists and its rows
are non-empty, the returned session is the input session with
`selectedProductIds` set to the first `min(20, rows.length)` product ids
of that record's rows, in order; when the tool calls hold no
`top_products` record, or the first one has no rows array or an empty
one, the session is returned unchanged (later non-empty `top_products`
records are ignored). -/
theorem c10_session_update (session : SessionState) (calls : List EvalToolCall) :
    (∀ rows, (((calls.find? (fun c => c.tool = "top_products")).bind
        (fun c => c.result)).bind (fun r => r.rows)) = some rows → rows ≠ [] →
      dataPresenterNextSession session calls =
        { session with selectedProductIds := some ((rows.take 20).map (fun r => r.productId)) }) ∧
    ((((calls.find? (fun c => c.tool = "top_products")).bind
        (fun c => c.result)).bind (fun r => r.rows)) = none →
      dataPresenterNextSession session calls = session) ∧
    ((((calls.find? (fun c => c.tool = "top_products")).bind
        (fun c => c.result)).bind (fun r => r.rows)) = some [] →
      dataPresenterNextSession session calls = session) := by
  refine ⟨?_, ?_, ?_⟩
  · intro rows h hne
    unfold dataPresenterNextSession
    rw [h]
    have hE : rows.isEmpty = false := by
      cases rows with
      | nil => exact absurd rfl hne
      | cons a l => rfl
    simp only [hE, Bool.false_eq_true, if_false]
    rw [List.map_take]
  · intro h
    unfold dataPresenterNextSession
    rw [h]
  · intro h
    unfold dataPresenterNextSession
    rw [h]
    rfl

/-- C10 witness: a first `top_products` record with two rows updates the
session to their product ids. -/
theorem c10_session_update_witness :
    ((((c10CallsB.find? (fun c => c.tool = "top_products")).bind
        (fun c => c.result)).bind (fun r => r.rows)) =
      some [{ productId := "p1", metricValue := 1 }, { productId := "p2", metricValue := 2 }]) ∧
    dataPresenterNextSession { selectedProductIds := none } c10CallsB =
      { selectedProductIds := some ((([({ productId := "p1", metricValue := 1 } : TopRow), { productId := "p2", metricValue := 2 }]).take 20).map (fun r => r.productId)) } :=
  ⟨rfl, (c10_session_update { selectedProductIds := none } c10CallsB).1
    [{ productId := "p1", metricValue := 1 }, { productId := "p2", metricValue := 2 }]
    rfl (List.cons_ne_nil _ _)⟩

/-! ## C9: the out-of-domain path -/

theorem redact_ood_fixed : redactPII oodResponseText = oodResponseText := by decide

/-- C9: whenever the manager decision is out-of-domain, `runQuery` returns
`ood = true` with response text exactly the literal out-of-scope string
(redaction leaves it unchanged), no plan and no tool calls, and still
appends one run record with `ood = true`, the same response, and no tool
calls, to the store's `runs` table. -/
theorem c9_ood_path (db : IaStateStore) (ftsMatch : String → FtsRow → Bool)
    (bm25 : String → FtsRow → ℚ) (score : MemorySearchHit → ℚ)
    (inp : OrchestratorInput) (h : inp.decision.ood = true) :
    (runQuery db ftsMatch bm25 score inp).1.ood = true ∧
    (runQuery db ftsMatch bm25 score inp).1.responseText = oodResponseText ∧
    redactPII oodResponseText = oodResponseText ∧
    (runQuery db ftsMatch bm25 score inp).1.toolCalls = none ∧
    (runQuery db ftsMatch bm25 score inp).1.plan = none ∧
    ∃ rec, (runQuery db ftsMatch bm25 score inp).2.runs = db.runs ++ [rec] ∧
      rec.ood = some true ∧ rec.response = some oodResponseText ∧ rec.toolCalls = none := by
  unfold runQuery
  simp only [h, Bool.true_or, if_true]
  rw [redact_ood_fixed]
  refine ⟨trivial, rfl, rfl, trivial, trivial, ?_⟩
  refine ⟨{ id := inp.runId, createdAt := inp.createdAt, userId := inp.userId,
            config := configJson inp.config, query := inp.query,
            augmentedQuery := some inp.augmentedQuery, route := none, ood := some true,
            plan := none, toolCalls := none, response := some oodResponseText,
            evalJson := none, latencies := none, memoryInjected := none }, ?_, rfl, rfl, rfl⟩
  unfold insertRun
  by_cases hb : inp.config.memoryMode = MemoryMode.baseline
  · rw [if_pos hb]
  · rw [if_neg hb]
    have hr : (retrieve db ftsMatch bm25 score 6 600 MemoryStage.manager_route inp.query []
        ["global", "user:" ++ inp.userId] inp.nowIso).store.runs = db.runs := rfl
    show _ ++ _ = _
    rw [hr]

/-- C9 witness: the OOD path at a concrete out-of-domain run. -/
theorem c9_ood_path_witness :
    c9Input.decision.ood = true ∧
    ((runQuery emptyStore (fun _ _ => true) (fun _ _ => 0) (fun _ => 0) c9Input).1.ood = true ∧
     (runQuery emptyStore (fun _ _ => true) (fun _ _ => 0) (fun _ => 0) c9Input).1.responseText
       = oodResponseText ∧
     redactPII oodResponseText = oodResponseText ∧
     (runQuery emptyStore (fun _ _ => true) (fun _ _ => 0) (fun _ => 0) c9Input).1.toolCalls
       = none ∧
     (runQuery emptyStore (fun _ _ => true) (fun _ _ => 0) (fun _ => 0) c9Input).1.plan = none ∧
     ∃ rec, (runQuery emptyStore (fun _ _ => true) (fun _ _ => 0) (fun _ => 0) c9Input).2.runs
         = emptyStore.runs ++ [rec] ∧
       rec.ood = some true ∧ rec.response = some oodResponseText ∧ rec.toolCalls = none) :=
  ⟨rfl, c9_ood_path emptyStore (fun _ _ => true) (fun _ _ => 0) (fun _ => 0) c9Input rfl⟩
